import Mathlib

/-
Shallow embedding of the sequential-thinking server core
(src/src/SequentialThinkingServer.ts together with the ThoughtStage enum and
thoughtStageFromString helper from the repository's types/utils modules).

Modelling conventions:
* JavaScript numbers used as thought counters are modelled as Int; quality
  scores and metrics are modelled as rationals (the code performs only
  arithmetic on literals such as 0.7, 0.8, 1.2).
* Optional fields are Option; JavaScript truthiness tests on them are embedded
  explicitly (0, the empty string and undefined are falsy).
* Timestamps (luxon DateTime.now) are modelled as an explicit `now : Nat`
  argument threaded into each operation.
* Thrown errors caught at each operation boundary are modelled with Except;
  the catch-all handler produces an explicit envelope record.
* String.prototype.toUpperCase is embedded as a character-wise ASCII uppercase
  map.
-/

/-- The ThoughtStage enum: ten reasoning stages. -/
inductive ThoughtStage where
  | PROBLEM_DEFINITION
  | PLAN
  | RESEARCH
  | ANALYSIS
  | IDEATION
  | SYNTHESIS
  | EVALUATION
  | REFINEMENT
  | IMPLEMENTATION
  | CONCLUSION
  deriving DecidableEq

/-- Canonical value of each enum member, exactly the string literals of the
TypeScript enum (e.g. PROBLEM_DEFINITION = "Problem Definition"). -/
def ThoughtStage.stageValue : ThoughtStage → String
  | .PROBLEM_DEFINITION => "Problem Definition"
  | .PLAN => "Plan"
  | .RESEARCH => "Research"
  | .ANALYSIS => "Analysis"
  | .IDEATION => "Ideation"
  | .SYNTHESIS => "Synthesis"
  | .EVALUATION => "Evaluation"
  | .REFINEMENT => "Refinement"
  | .IMPLEMENTATION => "Implementation"
  | .CONCLUSION => "Conclusion"

/-- Symbolic member name of each enum member, as produced by Object.keys. -/
def ThoughtStage.stageName : ThoughtStage → String
  | .PROBLEM_DEFINITION => "PROBLEM_DEFINITION"
  | .PLAN => "PLAN"
  | .RESEARCH => "RESEARCH"
  | .ANALYSIS => "ANALYSIS"
  | .IDEATION => "IDEATION"
  | .SYNTHESIS => "SYNTHESIS"
  | .EVALUATION => "EVALUATION"
  | .REFINEMENT => "REFINEMENT"
  | .IMPLEMENTATION => "IMPLEMENTATION"
  | .CONCLUSION => "CONCLUSION"

/-- Declaration order of the enum members (the iteration order of Object.keys
and Object.values on the TypeScript enum object). -/
def stageList : List ThoughtStage :=
  [.PROBLEM_DEFINITION, .PLAN, .RESEARCH, .ANALYSIS, .IDEATION,
   .SYNTHESIS, .EVALUATION, .REFINEMENT, .IMPLEMENTATION, .CONCLUSION]

/-- Embedding of String.prototype.toUpperCase as a character-wise ASCII
uppercase map (all strings handled by the code are ASCII). -/
def toUpperString (s : String) : String :=
  String.mk (s.data.map Char.toUpper)

/-- thoughtStageFromString: three-tier resolution of a stage string.
Tier 1: exact match against the canonical enum values; tier 2:
case-insensitive match against the symbolic member names; tier 3:
case-insensitive match against the canonical values; otherwise an error whose
message joins all canonical values with a comma. -/
def thoughtStageFromString (value : String) : Except String ThoughtStage :=
  match stageList.find? (fun s => decide (s.stageValue = value)) with
  | some s => .ok s
  | none =>
    match stageList.find? (fun s => decide (toUpperString s.stageName = toUpperString value)) with
    | some s => .ok s
    | none =>
      match stageList.find? (fun s => decide (toUpperString s.stageValue = toUpperString value)) with
      | some s => .ok s
      | none =>
        .error ("Invalid stage: " ++ value ++ ". Valid stages are: " ++
          String.intercalate ", " (stageList.map ThoughtStage.stageValue))

/-- The ThoughtData record (types module). createdAt is the timestamp stamped
at validation time. -/
structure ThoughtData where
  thought : String
  thoughtNumber : Int
  totalThoughts : Int
  nextThoughtNeeded : Bool
  stage : ThoughtStage
  isRevision : Option Bool
  revisesThought : Option Int
  branchFromThought : Option Int
  branchId : Option String
  needsMoreThoughts : Option Bool
  score : Option ℚ
  tags : List String
  createdAt : Nat
  deriving DecidableEq

/-- Raw input record handed to validateThoughtData; the stage is still a
string and tags may be absent. -/
structure InputData where
  thought : String
  thoughtNumber : Int
  totalThoughts : Int
  nextThoughtNeeded : Bool
  stage : String
  isRevision : Option Bool
  revisesThought : Option Int
  branchFromThought : Option Int
  branchId : Option String
  needsMoreThoughts : Option Bool
  score : Option ℚ
  tags : Option (List String)
  deriving DecidableEq

/-- validateThought: the four structural invariants, checked in order, the
first violation producing the error. -/
def validateThought (thought : ThoughtData) : Except String Unit :=
  if thought.thoughtNumber < 1 then
    .error "Thought number must be positive"
  else if thought.totalThoughts < thought.thoughtNumber then
    .error "Total thoughts must be greater than or equal to thought number"
  else if (match thought.score with
           | some q => decide (q < 0) || decide (1 < q)
           | none => false) then
    .error "Score must be between 0 and 1"
  else if (match thought.revisesThought with
           | some r => decide (thought.thoughtNumber ≤ r)
           | none => false) then
    .error "Cannot revise a future thought"
  else
    .ok ()

/-- validateThoughtData: resolve the stage, build the ThoughtData record
stamping createdAt, run validateThought; any failure is rethrown with the
prefix Invalid thought data. -/
def validateThoughtData (inputData : InputData) (now : Nat) : Except String ThoughtData :=
  match thoughtStageFromString inputData.stage with
  | .error e => .error ("Invalid thought data: " ++ e)
  | .ok stage =>
    let thoughtData : ThoughtData :=
      { thought := inputData.thought
        thoughtNumber := inputData.thoughtNumber
        totalThoughts := inputData.totalThoughts
        nextThoughtNeeded := inputData.nextThoughtNeeded
        stage := stage
        isRevision := inputData.isRevision
        revisesThought := inputData.revisesThought
        branchFromThought := inputData.branchFromThought
        branchId := inputData.branchId
        needsMoreThoughts := inputData.needsMoreThoughts
        score := inputData.score
        tags := inputData.tags.getD []
        createdAt := now }
    match validateThought thoughtData with
    | .error e => .error ("Invalid thought data: " ++ e)
    | .ok _ => .ok thoughtData

/-- Lookup in an insertion-ordered association list (a JavaScript object used
as a dictionary). -/
def lookupAssoc {α : Type} [DecidableEq α]
    (assoc : List (α × List ThoughtData)) (key : α) : Option (List ThoughtData) :=
  match assoc with
  | [] => none
  | (k, ts) :: rest => if k = key then some ts else lookupAssoc rest key

/-- Append a thought to the list stored under a key, creating the key at the
end of the object if absent (JavaScript object insertion-order semantics). -/
def appendAssoc {α : Type} [DecidableEq α]
    (assoc : List (α × List ThoughtData)) (key : α) (t : ThoughtData) :
    List (α × List ThoughtData) :=
  match assoc with
  | [] => [(key, [t])]
  | (k, ts) :: rest =>
    if k = key then (k, ts ++ [t]) :: rest
    else (k, ts) :: appendAssoc rest key t

/-- MemoryManager state: short-term buffer plus long-term storage keyed by the
stage (Record of string stage value to thought list; the stage value is in
bijection with the enum member, so the key is modelled as the stage). -/
structure MemoryManager where
  shortTermBuffer : List ThoughtData
  longTermStorage : List (ThoughtStage × List ThoughtData)
  deriving DecidableEq

def importanceThreshold : ℚ := 0.7

def maxBufferSize : Nat := 10

def initialMemory : MemoryManager := ⟨[], []⟩

/-- Embedding of the long-term promotion test: thought.score is truthy (not
undefined and not 0) and at least the importance threshold. -/
def scoreQualifies (score : Option ℚ) : Bool :=
  match score with
  | none => false
  | some q => (!(decide (q = 0))) && decide (importanceThreshold ≤ q)

/-- MemoryManager.consolidateMemory: push onto the short-term buffer, truncate
to the most recent maxBufferSize entries when it overflows (slice of the last
ten), and independently promote the thought to its stage's long-term list when
its score qualifies. -/
def consolidateMemory (m : MemoryManager) (thought : ThoughtData) : MemoryManager :=
  let buffer := m.shortTermBuffer ++ [thought]
  let buffer := if maxBufferSize < buffer.length
                then buffer.drop (buffer.length - maxBufferSize)
                else buffer
  let storage := if scoreQualifies thought.score
                 then appendAssoc m.longTermStorage thought.stage thought
                 else m.longTermStorage
  ⟨buffer, storage⟩

/-- Fold of consolidateMemory over a call sequence. -/
def consolidateAll (m : MemoryManager) (thoughts : List ThoughtData) : MemoryManager :=
  thoughts.foldl consolidateMemory m

/-- Tag-overlap test of retrieveRelevantThoughts: the stored thought has some
tag contained in the query thought's tag list. -/
def tagsOverlap (stored currentThought : ThoughtData) : Bool :=
  stored.tags.any (fun tag => currentThought.tags.contains tag)

/-- MemoryManager.retrieveRelevantThoughts: scan every long-term list in
storage iteration order and push every stored thought sharing a tag with the
query thought. -/
def retrieveRelevantThoughts (m : MemoryManager) (currentThought : ThoughtData) :
    List ThoughtData :=
  m.longTermStorage.foldl
    (fun relevant entry =>
      entry.2.foldl
        (fun rel t => if tagsOverlap t currentThought then rel ++ [t] else rel)
        relevant)
    []

/-- ReasoningEngine.analyzeThoughtPattern: ordered stage-to-pattern rules,
default deductive. -/
def analyzeThoughtPattern (thought : ThoughtData) : String :=
  if thought.stage = ThoughtStage.ANALYSIS ∨ thought.stage = ThoughtStage.EVALUATION then
    "deductive"
  else if thought.stage = ThoughtStage.IDEATION then
    "creative"
  else if thought.stage = ThoughtStage.SYNTHESIS then
    "inductive"
  else
    "deductive"

/-- Each reasoningPatterns entry appends its own pattern name as a tag and
returns the thought. -/
def applyPatternTag (pattern : String) (thought : ThoughtData) : ThoughtData :=
  { thought with tags := thought.tags ++ [pattern] }

/-- ReasoningEngine.applyReasoningStrategy: dispatch the mapped pattern's
tagging function on the thought. -/
def applyReasoningStrategy (thought : ThoughtData) : ThoughtData :=
  applyPatternTag (analyzeThoughtPattern thought) thought

/-- The six quality metrics of the MetacognitiveMonitor. -/
structure QualityMetrics where
  coherence : ℚ
  depth : ℚ
  creativity : ℚ
  practicality : ℚ
  relevance : ℚ
  clarity : ℚ
  deriving DecidableEq

/-- Initial qualityMetrics record: all six metrics 0.0. -/
def initialQualityMetrics : QualityMetrics := ⟨0, 0, 0, 0, 0, 0⟩

/-- MetacognitiveMonitor.evaluateThoughtQuality: base metrics as fixed
fractions of a truthy score (undefined or 0 leaves the zero record), then the
stage adjustment multiplies creativity by 1.2 for Ideation and practicality by
1.2 for Evaluation. -/
def MetacognitiveMonitor.evaluateThoughtQuality (thought : ThoughtData) : QualityMetrics :=
  let metrics := initialQualityMetrics
  let metrics :=
    match thought.score with
    | some baseScore =>
      if baseScore = 0 then metrics
      else
        { coherence := baseScore
          depth := baseScore * 0.8
          creativity := baseScore * 0.7
          practicality := baseScore * 0.9
          relevance := baseScore * 0.85
          clarity := baseScore * 0.95 }
    | none => metrics
  if thought.stage = ThoughtStage.IDEATION then
    { metrics with creativity := metrics.creativity * 1.2 }
  else if thought.stage = ThoughtStage.EVALUATION then
    { metrics with practicality := metrics.practicality * 1.2 }
  else
    metrics

/-- MetacognitiveMonitor.generateImprovementSuggestions: one fixed string per
metric strictly below 0.7, in metric declaration order. -/
def MetacognitiveMonitor.generateImprovementSuggestions (metrics : QualityMetrics) :
    List String :=
  (if metrics.coherence < 0.7 then ["Consider strengthening logical connections"] else []) ++
  (if metrics.depth < 0.7 then ["Try exploring the concept more thoroughly"] else []) ++
  (if metrics.creativity < 0.7 then ["Consider adding more innovative elements"] else []) ++
  (if metrics.practicality < 0.7 then ["Focus on practical applications"] else []) ++
  (if metrics.relevance < 0.7 then ["Ensure alignment with main objectives"] else []) ++
  (if metrics.clarity < 0.7 then ["Try expressing ideas more clearly"] else [])

/-- MetacognitiveMonitor.suggestImprovements: metrics then suggestions. -/
def MetacognitiveMonitor.suggestImprovements (thought : ThoughtData) : List String :=
  MetacognitiveMonitor.generateImprovementSuggestions
    (MetacognitiveMonitor.evaluateThoughtQuality thought)

/-- Failure envelope produced by handleError: the message, status failed, the
thrown error's constructor name (always the plain Error class here) and the
current timestamp. -/
structure ErrorEnvelope where
  error : String
  status : String
  errorType : String
  timestamp : Nat
  deriving DecidableEq

/-- handleError: every thrown value in this module is an Error instance, so
the envelope records its message and the constructor name Error. -/
def handleError (message : String) (now : Nat) : ErrorEnvelope :=
  ⟨message, "failed", "Error", now⟩

/-- Orchestrator state of EnhancedSequentialThinkingServer: the thought
history, the branch index, the active branch id and the memory manager. -/
structure ServerState where
  thoughtHistory : List ThoughtData
  branches : List (String × List ThoughtData)
  activeBranchId : Option String
  memoryManager : MemoryManager
  deriving DecidableEq

def initialState : ServerState := ⟨[], [], none, initialMemory⟩

/-- findThoughtById: first history entry with the given thought number. -/
def findThoughtById (s : ServerState) (thoughtId : Int) : Option ThoughtData :=
  s.thoughtHistory.find? (fun t => decide (t.thoughtNumber = thoughtId))

/-- updateThought: replace the first history entry that carries the updated
thought's number (findIndex followed by assignment); no-op when absent. -/
def updateThought (history : List ThoughtData) (updatedThought : ThoughtData) :
    List ThoughtData :=
  match history with
  | [] => []
  | t :: rest =>
    if t.thoughtNumber = updatedThought.thoughtNumber then updatedThought :: rest
    else t :: updateThought rest updatedThought

/-- Branch bookkeeping shared by captureThought and composedThink: only when
both branchFromThought and branchId are truthy (present, nonzero, nonempty) is
the thought pushed onto the branch list keyed by branchId (created if
absent). -/
def branchBookkeeping (s : ServerState) (t : ThoughtData) : ServerState :=
  match t.branchFromThought, t.branchId with
  | some bft, some bid =>
    if bft = 0 ∨ bid = "" then s
    else { s with branches := appendAssoc s.branches bid t }
  | _, _ => s

/-- Success payload of captureThought. -/
structure CaptureOk where
  status : String
  thoughtNumber : Int
  stage : ThoughtStage
  timestamp : Nat
  branch : Option String
  deriving DecidableEq

/-- captureThought: validate, consolidate into memory, append to history,
branch bookkeeping; validation failure is converted by handleError. -/
def captureThought (s : ServerState) (inputData : InputData) (now : Nat) :
    ServerState × Except ErrorEnvelope CaptureOk :=
  match validateThoughtData inputData now with
  | .error msg => (s, .error (handleError msg now))
  | .ok thoughtData =>
    let s := { s with memoryManager := consolidateMemory s.memoryManager thoughtData }
    let s := { s with thoughtHistory := s.thoughtHistory ++ [thoughtData] }
    let s := branchBookkeeping s thoughtData
    (s, .ok ⟨"success", thoughtData.thoughtNumber, thoughtData.stage,
             thoughtData.createdAt, thoughtData.branchId⟩)

/-- Success payload of applyReasoning. -/
structure ReasoningOk where
  status : String
  thoughtNumber : Int
  pattern : String
  tags : List String
  deriving DecidableEq

/-- applyReasoning: look the thought up, report the override pattern when it
is truthy (else the mapped pattern), but always mutate via the engine's own
mapping; update the history in place. -/
def applyReasoning (s : ServerState) (thoughtId : Int) (reasoningType : Option String)
    (now : Nat) : ServerState × Except ErrorEnvelope ReasoningOk :=
  match findThoughtById s thoughtId with
  | none =>
    (s, .error (handleError ("Thought with ID " ++ toString thoughtId ++ " not found") now))
  | some thought =>
    let pattern :=
      match reasoningType with
      | some r => if r = "" then analyzeThoughtPattern thought else r
      | none => analyzeThoughtPattern thought
    let updatedThought := applyReasoningStrategy thought
    let s := { s with thoughtHistory := updateThought s.thoughtHistory updatedThought }
    (s, .ok ⟨"success", updatedThought.thoughtNumber, pattern, updatedThought.tags⟩)

/-- Success payload of the evaluate-quality operation. -/
structure EvaluationOk where
  status : String
  thoughtNumber : Int
  qualityMetrics : QualityMetrics
  suggestedImprovements : List String
  deriving DecidableEq

/-- Server operation evaluateThoughtQuality: look the thought up and return
its metrics and suggestions; the state is not mutated. -/
def serverEvaluateThoughtQuality (s : ServerState) (thoughtId : Int) (now : Nat) :
    ServerState × Except ErrorEnvelope EvaluationOk :=
  match findThoughtById s thoughtId with
  | none =>
    (s, .error (handleError ("Thought with ID " ++ toString thoughtId ++ " not found") now))
  | some thought =>
    let metrics := MetacognitiveMonitor.evaluateThoughtQuality thought
    (s, .ok ⟨"success", thought.thoughtNumber, metrics,
             MetacognitiveMonitor.generateImprovementSuggestions metrics⟩)

/-- Projection of a related thought in the retrieval payload. -/
structure RelatedThoughtView where
  thoughtNumber : Int
  stage : ThoughtStage
  tags : List String
  deriving DecidableEq

/-- Success payload of the retrieve-relevant operation. -/
structure RetrievalOk where
  status : String
  thoughtNumber : Int
  relatedThoughtsCount : Nat
  relatedThoughts : List RelatedThoughtView
  deriving DecidableEq

/-- Server operation retrieveRelevantThoughts: look the thought up and
delegate to the memory manager. -/
def serverRetrieveRelevantThoughts (s : ServerState) (thoughtId : Int) (now : Nat) :
    ServerState × Except ErrorEnvelope RetrievalOk :=
  match findThoughtById s thoughtId with
  | none =>
    (s, .error (handleError ("Thought with ID " ++ toString thoughtId ++ " not found") now))
  | some thought =>
    let relatedThoughts := retrieveRelevantThoughts s.memoryManager thought
    (s, .ok ⟨"success", thought.thoughtNumber, relatedThoughts.length,
             relatedThoughts.map (fun t => ⟨t.thoughtNumber, t.stage, t.tags⟩)⟩)

/-- Success payload of branchThought. -/
structure BranchOk where
  status : String
  parentThoughtNumber : Int
  branchId : String
  isActive : Bool
  deriving DecidableEq

/-- branchThought: find the parent by number (NotFound message otherwise); if
the branch id is not yet a key of the branch index, create it as an empty list
and make it the active branch; report whether it is now active. -/
def branchThought (s : ServerState) (parentThoughtId : Int) (branchId : String)
    (now : Nat) : ServerState × Except ErrorEnvelope BranchOk :=
  match findThoughtById s parentThoughtId with
  | none =>
    (s, .error (handleError
      ("Parent thought with ID " ++ toString parentThoughtId ++ " not found") now))
  | some parentThought =>
    let s :=
      if (lookupAssoc s.branches branchId).isNone then
        { s with branches := s.branches ++ [(branchId, [])],
                 activeBranchId := some branchId }
      else s
    (s, .ok ⟨"success", parentThought.thoughtNumber, branchId,
             decide (s.activeBranchId = some branchId)⟩)

/-- Success payload of composedThink (currentThought snapshot, analysis and
context sections flattened into one record). -/
structure ComposedOk where
  thoughtNumber : Int
  totalThoughts : Int
  nextThoughtNeeded : Bool
  stage : ThoughtStage
  score : Option ℚ
  tags : List String
  timestamp : Nat
  branch : Option String
  relatedThoughtsCount : Nat
  qualityMetrics : QualityMetrics
  suggestedImprovements : List String
  activeBranches : List String
  thoughtHistoryLength : Nat
  currentStage : ThoughtStage
  deriving DecidableEq

/-- composedThink: validate, apply the reasoning strategy, consolidate into
memory, compute suggestions, retrieve related thoughts from the updated
memory, append to history, run branch bookkeeping, and return the combined
analysis payload. -/
def composedThink (s : ServerState) (inputData : InputData) (now : Nat) :
    ServerState × Except ErrorEnvelope ComposedOk :=
  match validateThoughtData inputData now with
  | .error msg => (s, .error (handleError msg now))
  | .ok thoughtData =>
    let enhancedThought := applyReasoningStrategy thoughtData
    let s := { s with memoryManager := consolidateMemory s.memoryManager enhancedThought }
    let improvements := MetacognitiveMonitor.suggestImprovements enhancedThought
    let relatedThoughts := retrieveRelevantThoughts s.memoryManager enhancedThought
    let s := { s with thoughtHistory := s.thoughtHistory ++ [enhancedThought] }
    let s := branchBookkeeping s enhancedThought
    (s, .ok ⟨enhancedThought.thoughtNumber, enhancedThought.totalThoughts,
             enhancedThought.nextThoughtNeeded, enhancedThought.stage,
             enhancedThought.score, enhancedThought.tags, enhancedThought.createdAt,
             enhancedThought.branchId, relatedThoughts.length,
             MetacognitiveMonitor.evaluateThoughtQuality enhancedThought, improvements,
             s.branches.map Prod.fst, s.thoughtHistory.length, enhancedThought.stage⟩)

/-- Boolean score-violation condition of validateThought, as a proposition. -/
theorem scoreBad_iff (t : ThoughtData) :
    ((match t.score with
      | some q => decide (q < 0) || decide (1 < q)
      | none => false) = true) ↔ ∃ q, t.score = some q ∧ (q < 0 ∨ 1 < q) := by
  cases h : t.score <;> simp [h]

/-- Boolean revision-violation condition of validateThought, as a
proposition. -/
theorem revisesBad_iff (t : ThoughtData) :
    ((match t.revisesThought with
      | some r => decide (t.thoughtNumber ≤ r)
      | none => false) = true) ↔ ∃ r, t.revisesThought = some r ∧ t.thoughtNumber ≤ r := by
  cases h : t.revisesThought <;> simp [h]

/-- C1: validateThought rejects a thought exactly when its number is below 1,
or totalThoughts is below the number, or a present score lies outside [0,1]
(score exactly 0 or 1 passes the score rule), or a present revisesThought is
at least the number; the four rules are checked in that order and the failure
message names only the first violated rule. -/
theorem validateThought_spec :
    (∀ t : ThoughtData,
      (∃ e, validateThought t = .error e) ↔
        (t.thoughtNumber < 1 ∨ t.totalThoughts < t.thoughtNumber ∨
         (∃ q, t.score = some q ∧ (q < 0 ∨ 1 < q)) ∨
         (∃ r, t.revisesThought = some r ∧ t.thoughtNumber ≤ r))) ∧
    (∀ t : ThoughtData, t.thoughtNumber < 1 →
        validateThought t = .error "Thought number must be positive") ∧
    (∀ t : ThoughtData, 1 ≤ t.thoughtNumber → t.totalThoughts < t.thoughtNumber →
        validateThought t =
          .error "Total thoughts must be greater than or equal to thought number") ∧
    (∀ t : ThoughtData, ∀ q : ℚ, 1 ≤ t.thoughtNumber → t.thoughtNumber ≤ t.totalThoughts →
        t.score = some q → (q < 0 ∨ 1 < q) →
        validateThought t = .error "Score must be between 0 and 1") ∧
    (∀ t : ThoughtData, ∀ r : Int, 1 ≤ t.thoughtNumber → t.thoughtNumber ≤ t.totalThoughts →
        (∀ q : ℚ, t.score = some q → 0 ≤ q ∧ q ≤ 1) →
        t.revisesThought = some r → t.thoughtNumber ≤ r →
        validateThought t = .error "Cannot revise a future thought") ∧
    (∀ t : ThoughtData, t.score = some 0 ∨ t.score = some 1 →
        validateThought t ≠ .error "Score must be between 0 and 1") := by
  refine ⟨?_, ?_, ?_, ?_, ?_, ?_⟩
  · intro t
    unfold validateThought
    split_ifs with h1 h2 h3 h4
    · exact ⟨fun _ => Or.inl h1, fun _ => ⟨_, rfl⟩⟩
    · exact ⟨fun _ => Or.inr (Or.inl h2), fun _ => ⟨_, rfl⟩⟩
    · exact ⟨fun _ => Or.inr (Or.inr (Or.inl ((scoreBad_iff t).mp h3))), fun _ => ⟨_, rfl⟩⟩
    · exact ⟨fun _ => Or.inr (Or.inr (Or.inr ((revisesBad_iff t).mp h4))), fun _ => ⟨_, rfl⟩⟩
    · constructor
      · rintro ⟨e, he⟩
        exact absurd he (by simp)
      · rintro (h | h | h | h)
        · exact absurd h h1
        · exact absurd h h2
        · exact absurd ((scoreBad_iff t).mpr h) h3
        · exact absurd ((revisesBad_iff t).mpr h) h4
  · intro t h1
    unfold validateThought
    rw [if_pos h1]
  · intro t h1 h2
    unfold validateThought
    rw [if_neg (by omega), if_pos h2]
  · intro t q h1 h2 hs hout
    unfold validateThought
    rw [if_neg (by omega), if_neg (by omega),
        if_pos ((scoreBad_iff t).mpr ⟨q, hs, hout⟩)]
  · intro t r h1 h2 hscore hr hrge
    unfold validateThought
    have hs : ¬ ((match t.score with
        | some q => decide (q < 0) || decide (1 < q)
        | none => false) = true) := by
      rw [scoreBad_iff t]
      rintro ⟨q, hq, hout⟩
      rcases hscore q hq with ⟨hq0, hq1⟩
      rcases hout with h | h
      · linarith
      · linarith
    rw [if_neg (by omega), if_neg (by omega), if_neg hs,
        if_pos ((revisesBad_iff t).mpr ⟨r, hr, hrge⟩)]
  · intro t hs
    unfold validateThought
    have hcond : ¬ ((match t.score with
        | some q => decide (q < 0) || decide (1 < q)
        | none => false) = true) := by
      rw [scoreBad_iff t]
      rintro ⟨q, hq, hout⟩
      rcases hs with h | h <;> rw [h] at hq <;> injection hq with hq' <;> subst hq' <;>
        rcases hout with h' | h' <;> norm_num at h'
    split_ifs with h1 h2 h3 <;> intro he
    · injection he with hmsg
      exact absurd hmsg (by decide)
    · injection he with hmsg
      exact absurd hmsg (by decide)
    · injection he with hmsg
      exact absurd hmsg (by decide)
    · exact absurd he (by simp)

/-- Witness for C1: a thought whose number is 0 is rejected by the first
rule. -/
theorem validateThought_spec_witness :
    validateThought
      { thought := "w", thoughtNumber := 0, totalThoughts := 0,
        nextThoughtNeeded := false, stage := ThoughtStage.PLAN, isRevision := none,
        revisesThought := none, branchFromThought := none, branchId := none,
        needsMoreThoughts := none, score := none, tags := [], createdAt := 0 } =
      .error "Thought number must be positive" :=
  validateThought_spec.2.1 _ (by decide)

/-- C2: stage resolution tries, in order, exact match on the canonical values,
case-insensitive match on the symbolic enum names, then case-insensitive match
on the canonical values, returning the first hit; the three spellings of
Problem Definition all resolve to the same stage; resolution fails exactly
when no tier matches, with a message listing all ten canonical values. -/
theorem thoughtStageFromString_spec :
    thoughtStageFromString "PROBLEM_DEFINITION" = .ok ThoughtStage.PROBLEM_DEFINITION ∧
    thoughtStageFromString "problem definition" = .ok ThoughtStage.PROBLEM_DEFINITION ∧
    thoughtStageFromString "Problem Definition" = .ok ThoughtStage.PROBLEM_DEFINITION ∧
    (∀ s : ThoughtStage, thoughtStageFromString s.stageValue = .ok s) ∧
    (∀ s : ThoughtStage, thoughtStageFromString s.stageName = .ok s) ∧
    (∀ v : String,
      (∃ s, thoughtStageFromString v = .ok s) ↔
        ∃ s : ThoughtStage, s ∈ stageList ∧
          (s.stageValue = v ∨ toUpperString s.stageName = toUpperString v ∨
           toUpperString s.stageValue = toUpperString v)) ∧
    (∀ v e, thoughtStageFromString v = .error e →
        e = "Invalid stage: " ++ v ++ ". Valid stages are: " ++
          "Problem Definition, Plan, Research, Analysis, Ideation, Synthesis, Evaluation, Refinement, Implementation, Conclusion") := by
  refine ⟨rfl, rfl, rfl, ?_, ?_, ?_, ?_⟩
  · intro s; cases s <;> rfl
  · intro s; cases s <;> rfl
  · intro v
    constructor
    · rintro ⟨s, hs⟩
      unfold thoughtStageFromString at hs
      cases h1 : stageList.find? (fun x => decide (x.stageValue = v)) with
      | some s1 =>
        rw [h1] at hs
        simp only [Except.ok.injEq] at hs
        subst hs
        exact ⟨s1, List.mem_of_find?_eq_some h1, Or.inl (by simpa using List.find?_some h1)⟩
      | none =>
        rw [h1] at hs
        cases h2 : stageList.find?
            (fun x => decide (toUpperString x.stageName = toUpperString v)) with
        | some s2 =>
          rw [h2] at hs
          simp only [Except.ok.injEq] at hs
          subst hs
          exact ⟨s2, List.mem_of_find?_eq_some h2,
                 Or.inr (Or.inl (by simpa using List.find?_some h2))⟩
        | none =>
          rw [h2] at hs
          cases h3 : stageList.find?
              (fun x => decide (toUpperString x.stageValue = toUpperString v)) with
          | some s3 =>
            rw [h3] at hs
            simp only [Except.ok.injEq] at hs
            subst hs
            exact ⟨s3, List.mem_of_find?_eq_some h3,
                   Or.inr (Or.inr (by simpa using List.find?_some h3))⟩
          | none =>
            rw [h3] at hs
            exact absurd hs (by simp)
    · rintro ⟨s, hmem, hcase⟩
      unfold thoughtStageFromString
      cases h1 : stageList.find? (fun x => decide (x.stageValue = v)) with
      | some s1 => exact ⟨s1, rfl⟩
      | none =>
        cases h2 : stageList.find?
            (fun x => decide (toUpperString x.stageName = toUpperString v)) with
        | some s2 => exact ⟨s2, rfl⟩
        | none =>
          cases h3 : stageList.find?
              (fun x => decide (toUpperString x.stageValue = toUpperString v)) with
          | some s3 => exact ⟨s3, rfl⟩
          | none =>
            exfalso
            rcases hcase with h | h | h
            · have hne := List.find?_eq_none.mp h1 s hmem
              simp only [decide_eq_true_eq] at hne
              exact hne h
            · have hne := List.find?_eq_none.mp h2 s hmem
              simp only [decide_eq_true_eq] at hne
              exact hne h
            · have hne := List.find?_eq_none.mp h3 s hmem
              simp only [decide_eq_true_eq] at hne
              exact hne h
  · intro v e he
    unfold thoughtStageFromString at he
    cases h1 : stageList.find? (fun x => decide (x.stageValue = v)) with
    | some s1 =>
      rw [h1] at he
      exact absurd he (by simp)
    | none =>
      rw [h1] at he
      cases h2 : stageList.find?
          (fun x => decide (toUpperString x.stageName = toUpperString v)) with
      | some s2 =>
        rw [h2] at he
        exact absurd he (by simp)
      | none =>
        rw [h2] at he
        cases h3 : stageList.find?
            (fun x => decide (toUpperString x.stageValue = toUpperString v)) with
        | some s3 =>
          rw [h3] at he
          exact absurd he (by simp)
        | none =>
          rw [h3] at he
          simp only [Except.error.injEq] at he
          subst he
          rfl

/-- Witness for C2: resolving the string not-a-stage fails with the message
listing all ten canonical stage values. -/
theorem thoughtStageFromString_spec_witness :
    ("Invalid stage: not-a-stage. Valid stages are: Problem Definition, Plan, Research, Analysis, Ideation, Synthesis, Evaluation, Refinement, Implementation, Conclusion" : String) =
      "Invalid stage: " ++ "not-a-stage" ++ ". Valid stages are: " ++
        "Problem Definition, Plan, Research, Analysis, Ideation, Synthesis, Evaluation, Refinement, Implementation, Conclusion" :=
  thoughtStageFromString_spec.2.2.2.2.2.2 "not-a-stage"
    "Invalid stage: not-a-stage. Valid stages are: Problem Definition, Plan, Research, Analysis, Ideation, Synthesis, Evaluation, Refinement, Implementation, Conclusion"
    (by rfl)

/-- Looking a key up after appendAssoc on that key yields the previous list
(empty when the key was absent) extended by the appended thought. -/
theorem lookupAssoc_appendAssoc_self {α : Type} [DecidableEq α]
    (assoc : List (α × List ThoughtData)) (key : α) (t : ThoughtData) :
    lookupAssoc (appendAssoc assoc key t) key =
      some ((lookupAssoc assoc key).getD [] ++ [t]) := by
  induction assoc with
  | nil => simp [lookupAssoc, appendAssoc]
  | cons e rest ih =>
    obtain ⟨k, ts⟩ := e
    by_cases hk : k = key
    · subst hk
      simp [lookupAssoc, appendAssoc]
    · simp only [appendAssoc, lookupAssoc, if_neg hk]
      exact ih

/-- appendAssoc leaves every other key unchanged. -/
theorem lookupAssoc_appendAssoc_ne {α : Type} [DecidableEq α]
    (assoc : List (α × List ThoughtData)) (key other : α) (t : ThoughtData)
    (h : other ≠ key) :
    lookupAssoc (appendAssoc assoc key t) other = lookupAssoc assoc other := by
  induction assoc with
  | nil =>
    simp only [appendAssoc, lookupAssoc]
    rw [if_neg (fun hk => h hk.symm)]
  | cons e rest ih =>
    obtain ⟨k, ts⟩ := e
    by_cases hk : k = key
    · subst hk
      simp only [appendAssoc, if_pos rfl, lookupAssoc]
      split_ifs with ho
      · exact absurd ho.symm h
      · rfl
    · simp only [appendAssoc, if_neg hk, lookupAssoc]
      split_ifs with ho
      · rfl
      · exact ih

/-- Single consolidation step on a buffer within capacity: the new buffer is
the pushed buffer with the overflow dropped from the front. -/
theorem consolidate_buffer_step (m : MemoryManager) (t : ThoughtData)
    (h : m.shortTermBuffer.length ≤ maxBufferSize) :
    (consolidateMemory m t).shortTermBuffer =
      (m.shortTermBuffer ++ [t]).drop ((m.shortTermBuffer.length + 1) - maxBufferSize) := by
  unfold consolidateMemory
  simp only [List.length_append, List.length_cons, List.length_nil]
  split_ifs with hlen
  · rfl
  · rw [Nat.sub_eq_zero_of_le (by omega), List.drop_zero]

/-- Folding consolidateMemory from a buffer within capacity keeps exactly the
suffix of the pushed sequence that fits the capacity. -/
theorem consolidateAll_buffer (ts : List ThoughtData) :
    ∀ m : MemoryManager, m.shortTermBuffer.length ≤ maxBufferSize →
      (consolidateAll m ts).shortTermBuffer =
        (m.shortTermBuffer ++ ts).drop
          ((m.shortTermBuffer.length + ts.length) - maxBufferSize) := by
  induction ts with
  | nil =>
    intro m hm
    simp only [consolidateAll, List.foldl_nil, List.length_nil, Nat.add_zero,
      List.append_nil]
    rw [Nat.sub_eq_zero_of_le hm, List.drop_zero]
  | cons t rest ih =>
    intro m hm
    have hstep := consolidate_buffer_step m t hm
    have hlen1 : (consolidateMemory m t).shortTermBuffer.length ≤ maxBufferSize := by
      rw [hstep, List.length_drop, List.length_append]
      simp only [List.length_cons, List.length_nil]
      omega
    have hrec := ih (consolidateMemory m t) hlen1
    have hfold : consolidateAll m (t :: rest) = consolidateAll (consolidateMemory m t) rest := by
      simp [consolidateAll]
    rw [hfold, hrec, hstep]
    have hk : (m.shortTermBuffer.length + 1) - maxBufferSize ≤
        (m.shortTermBuffer ++ [t]).length := by
      rw [List.length_append]
      simp only [List.length_cons, List.length_nil]
      omega
    rw [← List.drop_append_of_le_length hk, List.drop_drop, List.length_drop,
        List.length_append]
    simp only [List.length_cons, List.length_nil, List.append_assoc,
      List.singleton_append]
    congr 1
    omega

/-- C3: starting from empty memory, after any sequence of consolidateMemory
calls the short-term buffer holds exactly the most recent min(n, 10) thoughts
in order; independently a thought is appended to the long-term list of its
stage exactly when its score is present and at least 0.7, other stages are
untouched, and the long-term effect is independent of the short-term
buffer. -/
theorem consolidateMemory_spec :
    (∀ ts : List ThoughtData,
       (consolidateAll initialMemory ts).shortTermBuffer =
         ts.drop (ts.length - maxBufferSize)) ∧
    (∀ m t, ∀ q : ℚ, t.score = some q → importanceThreshold ≤ q →
       lookupAssoc (consolidateMemory m t).longTermStorage t.stage =
         some ((lookupAssoc m.longTermStorage t.stage).getD [] ++ [t])) ∧
    (∀ m t, ∀ q : ℚ, t.score = some q → q < importanceThreshold →
       (consolidateMemory m t).longTermStorage = m.longTermStorage) ∧
    (∀ m t, t.score = none →
       (consolidateMemory m t).longTermStorage = m.longTermStorage) ∧
    (∀ m t, ∀ s : ThoughtStage, s ≠ t.stage →
       lookupAssoc (consolidateMemory m t).longTermStorage s =
         lookupAssoc m.longTermStorage s) ∧
    (∀ m t buf,
       (consolidateMemory { m with shortTermBuffer := buf } t).longTermStorage =
         (consolidateMemory m t).longTermStorage) := by
  have hqual : ∀ t : ThoughtData, ∀ q : ℚ, t.score = some q → importanceThreshold ≤ q →
      scoreQualifies t.score = true := by
    intro t q hq hge
    rw [hq]
    simp only [scoreQualifies, Bool.and_eq_true, Bool.not_eq_true', decide_eq_false_iff_not,
      decide_eq_true_eq]
    constructor
    · intro h0
      rw [h0] at hge
      norm_num [importanceThreshold] at hge
    · exact hge
  have hnotqual : ∀ t : ThoughtData, ∀ q : ℚ, t.score = some q → q < importanceThreshold →
      scoreQualifies t.score = false := by
    intro t q hq hlt
    rw [hq]
    simp only [scoreQualifies, Bool.and_eq_false_iff]  -- placeholder
    right
    simp only [decide_eq_false_iff_not]
    exact fun hge => absurd hge (not_le.mpr hlt)
  refine ⟨?_, ?_, ?_, ?_, ?_, ?_⟩
  · intro ts
    have := consolidateAll_buffer ts initialMemory (by simp [initialMemory, maxBufferSize])
    simpa [initialMemory] using this
  · intro m t q hq hge
    unfold consolidateMemory
    rw [if_pos (hqual t q hq hge)]
    exact lookupAssoc_appendAssoc_self m.longTermStorage t.stage t
  · intro m t q hq hlt
    unfold consolidateMemory
    rw [if_neg (by rw [hnotqual t q hq hlt]; exact Bool.false_ne_true)]
  · intro m t hnone
    unfold consolidateMemory
    rw [if_neg (by rw [hnone]; simp [scoreQualifies])]
  · intro m t s hne
    unfold consolidateMemory
    split_ifs with hq
    · exact lookupAssoc_appendAssoc_ne m.longTermStorage t.stage s t hne
    · rfl
  · intro m t buf
    rfl

/-- Example thought with a qualifying score, used by concrete witnesses. -/
def exThoughtHigh : ThoughtData :=
  { thought := "useful", thoughtNumber := 2, totalThoughts := 3,
    nextThoughtNeeded := true, stage := ThoughtStage.IDEATION, isRevision := none,
    revisesThought := none, branchFromThought := none, branchId := none,
    needsMoreThoughts := none, score := some 0.8, tags := ["a"], createdAt := 0 }

/-- Witness for C3: a thought with score 0.8 is promoted into the long-term
list of its stage. -/
theorem consolidateMemory_spec_witness :
    lookupAssoc (consolidateMemory initialMemory exThoughtHigh).longTermStorage
        exThoughtHigh.stage =
      some ((lookupAssoc initialMemory.longTermStorage exThoughtHigh.stage).getD []
        ++ [exThoughtHigh]) :=
  consolidateMemory_spec.2.1 initialMemory exThoughtHigh 0.8 rfl
    (by norm_num [importanceThreshold])

/-- C4: with no score all six metrics are 0; with score q the metrics are the
fixed fractions of q, with creativity further multiplied by 1.2 for Ideation
and practicality by 1.2 for Evaluation (applied after the base computation,
unclamped); the concrete example score 0.8 at Ideation gives creativity 0.672
and coherence 0.8; the server-level evaluate operation does not mutate the
state. -/
theorem evaluateThoughtQuality_spec :
    (∀ t : ThoughtData, t.score = none →
        (MetacognitiveMonitor.evaluateThoughtQuality t).coherence = 0 ∧
        (MetacognitiveMonitor.evaluateThoughtQuality t).depth = 0 ∧
        (MetacognitiveMonitor.evaluateThoughtQuality t).creativity = 0 ∧
        (MetacognitiveMonitor.evaluateThoughtQuality t).practicality = 0 ∧
        (MetacognitiveMonitor.evaluateThoughtQuality t).relevance = 0 ∧
        (MetacognitiveMonitor.evaluateThoughtQuality t).clarity = 0) ∧
    (∀ t : ThoughtData, ∀ q : ℚ, t.score = some q →
        (MetacognitiveMonitor.evaluateThoughtQuality t).coherence = q ∧
        (MetacognitiveMonitor.evaluateThoughtQuality t).depth = q * 0.8 ∧
        (MetacognitiveMonitor.evaluateThoughtQuality t).creativity =
          q * 0.7 * (if t.stage = ThoughtStage.IDEATION then (1.2 : ℚ) else 1) ∧
        (MetacognitiveMonitor.evaluateThoughtQuality t).practicality =
          q * 0.9 * (if t.stage = ThoughtStage.EVALUATION then (1.2 : ℚ) else 1) ∧
        (MetacognitiveMonitor.evaluateThoughtQuality t).relevance = q * 0.85 ∧
        (MetacognitiveMonitor.evaluateThoughtQuality t).clarity = q * 0.95) ∧
    (∀ t : ThoughtData, t.score = some 0.8 → t.stage = ThoughtStage.IDEATION →
        (MetacognitiveMonitor.evaluateThoughtQuality t).creativity = 0.672 ∧
        (MetacognitiveMonitor.evaluateThoughtQuality t).coherence = 0.8) ∧
    (∀ s : ServerState, ∀ thoughtId : Int, ∀ now : Nat,
        (serverEvaluateThoughtQuality s thoughtId now).1 = s) := by
  refine ⟨?_, ?_, ?_, ?_⟩
  · intro t hnone
    unfold MetacognitiveMonitor.evaluateThoughtQuality
    rw [hnone]
    split_ifs <;> simp [initialQualityMetrics]
  · intro t q hq
    unfold MetacognitiveMonitor.evaluateThoughtQuality
    rw [hq]
    rcases eq_or_ne q 0 with hq0 | hq0
    · subst hq0
      split_ifs <;> simp_all [initialQualityMetrics]
    · split_ifs <;> simp_all [initialQualityMetrics]
  · intro t hq hstage
    unfold MetacognitiveMonitor.evaluateThoughtQuality
    rw [hq, hstage]
    split_ifs with h0 <;> simp_all [initialQualityMetrics] <;> norm_num
  · intro s thoughtId now
    unfold serverEvaluateThoughtQuality
    cases findThoughtById s thoughtId <;> rfl

/-- Witness for C4: the concrete example thought with score 0.8 at stage
Ideation has creativity 0.672 and coherence 0.8. -/
theorem evaluateThoughtQuality_spec_witness :
    (MetacognitiveMonitor.evaluateThoughtQuality exThoughtHigh).creativity = 0.672 ∧
    (MetacognitiveMonitor.evaluateThoughtQuality exThoughtHigh).coherence = 0.8 :=
  evaluateThoughtQuality_spec.2.2.1 exThoughtHigh rfl rfl

/-- Example thought at stage Analysis with no tags, thought number 1. -/
def exThought1 : ThoughtData :=
  { thought := "first", thoughtNumber := 1, totalThoughts := 3,
    nextThoughtNeeded := true, stage := ThoughtStage.ANALYSIS, isRevision := none,
    revisesThought := none, branchFromThought := none, branchId := none,
    needsMoreThoughts := none, score := none, tags := [], createdAt := 0 }

/-- Server state whose history holds exactly exThought1. -/
def exState1 : ServerState := ⟨[exThought1], [], none, initialMemory⟩

/-- C5 counterexample: with the override pattern given as the empty string on
a thought at stage Analysis, the reported pattern is the stage-mapped
deductive, not the given override, so the reported pattern can differ from a
given reasoningType. -/
theorem applyReasoning_override_counterexample :
    (applyReasoning exState1 1 (some "") 0).2 =
      .ok ⟨"success", 1, "deductive", ["deductive"]⟩ ∧
    ("deductive" : String) ≠ "" := by
  exact ⟨rfl, by decide⟩

/-- First-match replacement keeps the updated thought findable under the same
number. -/
theorem find?_updateThought (l : List ThoughtData) (thoughtId : Int) (t u : ThoughtData)
    (hfind : l.find? (fun x => decide (x.thoughtNumber = thoughtId)) = some t)
    (hu : u.thoughtNumber = t.thoughtNumber) :
    (updateThought l u).find? (fun x => decide (x.thoughtNumber = thoughtId)) = some u := by
  induction l with
  | nil => simp at hfind
  | cons a rest ih =>
    have htid : t.thoughtNumber = thoughtId := by
      simpa using List.find?_some hfind
    by_cases ha : a.thoughtNumber = thoughtId
    · rw [List.find?_cons_of_pos _ (by simpa using ha)] at hfind
      injection hfind with ht
      subst ht
      unfold updateThought
      rw [if_pos hu.symm]
      exact List.find?_cons_of_pos _ (by simp [hu, ha])
    · rw [List.find?_cons_of_neg _ (by simpa using ha)] at hfind
      unfold updateThought
      by_cases hau : a.thoughtNumber = u.thoughtNumber
      · exact absurd (by rw [hau, hu, htid]) ha
      · rw [if_neg hau, List.find?_cons_of_neg _ (by simpa using ha)]
        exact ih hfind

/-- C5 (amended): the stage-mapped pattern is creative for Ideation, inductive
for Synthesis and deductive otherwise (including Analysis and Evaluation); the
reported pattern equals the override exactly when the override is given and
nonempty, else the stage-mapped pattern; the tag appended to the stored
thought is always the stage-mapped pattern, exactly one per call with no
deduplication, and the resulting state does not depend on the override. -/
theorem applyReasoning_amended :
    (∀ t : ThoughtData, analyzeThoughtPattern t =
        if t.stage = ThoughtStage.IDEATION then "creative"
        else if t.stage = ThoughtStage.SYNTHESIS then "inductive"
        else "deductive") ∧
    (∀ s : ServerState, ∀ thoughtId : Int, ∀ rt : String, ∀ now : Nat, ∀ t : ThoughtData,
        findThoughtById s thoughtId = some t →
        (applyReasoning s thoughtId (some rt) now).2 =
          .ok ⟨"success", t.thoughtNumber,
               if rt = "" then analyzeThoughtPattern t else rt,
               t.tags ++ [analyzeThoughtPattern t]⟩) ∧
    (∀ s : ServerState, ∀ thoughtId : Int, ∀ now : Nat, ∀ t : ThoughtData,
        findThoughtById s thoughtId = some t →
        (applyReasoning s thoughtId none now).2 =
          .ok ⟨"success", t.thoughtNumber, analyzeThoughtPattern t,
               t.tags ++ [analyzeThoughtPattern t]⟩) ∧
    (∀ s : ServerState, ∀ thoughtId : Int, ∀ rt : Option String, ∀ now : Nat,
        ∀ t : ThoughtData,
        findThoughtById s thoughtId = some t →
        findThoughtById (applyReasoning s thoughtId rt now).1 thoughtId =
          some { t with tags := t.tags ++ [analyzeThoughtPattern t] }) ∧
    (∀ s : ServerState, ∀ thoughtId : Int, ∀ rt : Option String, ∀ now : Nat,
        (applyReasoning s thoughtId rt now).1 = (applyReasoning s thoughtId none now).1) := by
  refine ⟨?_, ?_, ?_, ?_, ?_⟩
  · intro t
    unfold analyzeThoughtPattern
    rcases h : t.stage <;> rfl
  · intro s thoughtId rt now t hfind
    unfold applyReasoning
    rw [hfind]
    rfl
  · intro s thoughtId now t hfind
    unfold applyReasoning
    rw [hfind]
    rfl
  · intro s thoughtId rt now t hfind
    unfold applyReasoning
    rw [hfind]
    unfold findThoughtById at hfind ⊢
    exact find?_updateThought s.thoughtHistory thoughtId t _ hfind rfl
  · intro s thoughtId rt now
    unfold applyReasoning
    cases findThoughtById s thoughtId <;> rfl

/-- Witness for C5 (amended): a nonempty override on the concrete state is
reported while the appended tag stays the stage-mapped deductive. -/
theorem applyReasoning_amended_witness :
    (applyReasoning exState1 1 (some "custom") 0).2 =
      .ok ⟨"success", exThought1.thoughtNumber,
           if "custom" = "" then analyzeThoughtPattern exThought1 else "custom",
           exThought1.tags ++ [analyzeThoughtPattern exThought1]⟩ :=
  applyReasoning_amended.2.1 exState1 1 "custom" 0 exThought1 (by rfl)

/-- Appending a new key at the end of an association list makes it found with
its value when it was previously absent. -/
theorem lookupAssoc_append_self {α : Type} [DecidableEq α]
    (assoc : List (α × List ThoughtData)) (key : α) (v : List ThoughtData)
    (h : lookupAssoc assoc key = none) :
    lookupAssoc (assoc ++ [(key, v)]) key = some v := by
  induction assoc with
  | nil => simp [lookupAssoc]
  | cons e rest ih =>
    obtain ⟨k, ts⟩ := e
    simp only [lookupAssoc, List.cons_append] at h ⊢
    split_ifs at h ⊢ with hk
    exact ih h

/-- Appending a new key at the end of an association list leaves every other
key unchanged. -/
theorem lookupAssoc_append_ne {α : Type} [DecidableEq α]
    (assoc : List (α × List ThoughtData)) (key other : α) (v : List ThoughtData)
    (h : other ≠ key) :
    lookupAssoc (assoc ++ [(key, v)]) other = lookupAssoc assoc other := by
  induction assoc with
  | nil =>
    simp only [List.nil_append, lookupAssoc]
    rw [if_neg (fun hk => h hk.symm)]
  | cons e rest ih =>
    obtain ⟨k, ts⟩ := e
    simp only [lookupAssoc, List.cons_append]
    split_ifs with hk
    · rfl
    · exact ih

/-- C6: branchThought fails with the NotFound message exactly when no history
entry carries the parent number; an unseen branchId is created as an empty
list and becomes the active branch (reported active); an existing branchId
leaves the whole state untouched and only reports activity; no call ever
appends a thought to any branch list; two calls with the same fresh branchId
report active on the first call while the second call changes nothing. -/
theorem branchThought_spec :
    (∀ s : ServerState, ∀ pid : Int, ∀ bid : String, ∀ now : Nat,
        (∀ t ∈ s.thoughtHistory, t.thoughtNumber ≠ pid) →
        (branchThought s pid bid now).1 = s ∧
        (branchThought s pid bid now).2 =
          .error (handleError ("Parent thought with ID " ++ toString pid ++ " not found") now)) ∧
    (∀ s : ServerState, ∀ pid : Int, ∀ bid : String, ∀ now : Nat, ∀ t : ThoughtData,
        findThoughtById s pid = some t →
        lookupAssoc s.branches bid = none →
        (branchThought s pid bid now).1.branches = s.branches ++ [(bid, [])] ∧
        (branchThought s pid bid now).1.activeBranchId = some bid ∧
        (branchThought s pid bid now).1.thoughtHistory = s.thoughtHistory ∧
        (branchThought s pid bid now).1.memoryManager = s.memoryManager ∧
        (branchThought s pid bid now).2 = .ok ⟨"success", t.thoughtNumber, bid, true⟩) ∧
    (∀ s : ServerState, ∀ pid : Int, ∀ bid : String, ∀ now : Nat, ∀ t : ThoughtData,
        findThoughtById s pid = some t →
        (lookupAssoc s.branches bid).isSome →
        (branchThought s pid bid now).1 = s ∧
        (branchThought s pid bid now).2 =
          .ok ⟨"success", t.thoughtNumber, bid, decide (s.activeBranchId = some bid)⟩) ∧
    (∀ s : ServerState, ∀ pid : Int, ∀ bid : String, ∀ now : Nat, ∀ b : String,
        lookupAssoc (branchThought s pid bid now).1.branches b = lookupAssoc s.branches b ∨
        (b = bid ∧ lookupAssoc s.branches b = none ∧
         lookupAssoc (branchThought s pid bid now).1.branches b = some [])) ∧
    (∀ s : ServerState, ∀ pid : Int, ∀ bid : String, ∀ now now2 : Nat, ∀ t : ThoughtData,
        findThoughtById s pid = some t →
        lookupAssoc s.branches bid = none →
        (branchThought s pid bid now).2 = .ok ⟨"success", t.thoughtNumber, bid, true⟩ ∧
        (branchThought (branchThought s pid bid now).1 pid bid now2).1 =
          (branchThought s pid bid now).1 ∧
        (branchThought (branchThought s pid bid now).1 pid bid now2).2 =
          .ok ⟨"success", t.thoughtNumber, bid, true⟩) := by
  have hnotfound : ∀ (s : ServerState) (pid : Int),
      (∀ t ∈ s.thoughtHistory, t.thoughtNumber ≠ pid) → findThoughtById s pid = none := by
    intro s pid h
    unfold findThoughtById
    exact List.find?_eq_none.mpr (fun x hx => by simpa using h x hx)
  have hcreate : ∀ (s : ServerState) (pid : Int) (bid : String) (now : Nat) (t : ThoughtData),
      findThoughtById s pid = some t →
      lookupAssoc s.branches bid = none →
      (branchThought s pid bid now).1.branches = s.branches ++ [(bid, [])] ∧
      (branchThought s pid bid now).1.activeBranchId = some bid ∧
      (branchThought s pid bid now).1.thoughtHistory = s.thoughtHistory ∧
      (branchThought s pid bid now).1.memoryManager = s.memoryManager ∧
      (branchThought s pid bid now).2 = .ok ⟨"success", t.thoughtNumber, bid, true⟩ := by
    intro s pid bid now t hfind hnone
    unfold branchThought
    rw [hfind]
    simp [hnone]
  have hexisting : ∀ (s : ServerState) (pid : Int) (bid : String) (now : Nat) (t : ThoughtData),
      findThoughtById s pid = some t →
      (lookupAssoc s.branches bid).isSome →
      (branchThought s pid bid now).1 = s ∧
      (branchThought s pid bid now).2 =
        .ok ⟨"success", t.thoughtNumber, bid, decide (s.activeBranchId = some bid)⟩ := by
    intro s pid bid now t hfind hsome
    obtain ⟨v, hv⟩ := Option.isSome_iff_exists.mp hsome
    unfold branchThought
    rw [hfind]
    simp [hv]
  refine ⟨?_, hcreate, hexisting, ?_, ?_⟩
  · intro s pid bid now h
    unfold branchThought
    rw [hnotfound s pid h]
    exact ⟨rfl, rfl⟩
  · intro s pid bid now b
    unfold branchThought
    cases hfind : findThoughtById s pid with
    | none => exact Or.inl rfl
    | some t =>
      by_cases hnone : lookupAssoc s.branches bid = none
      · simp only [hnone, Option.isNone_none, if_true]
        by_cases hb : b = bid
        · subst hb
          exact Or.inr ⟨rfl, hnone, lookupAssoc_append_self s.branches b [] hnone⟩
        · exact Or.inl (lookupAssoc_append_ne s.branches bid b [] hb)
      · obtain ⟨v, hv⟩ := Option.ne_none_iff_exists'.mp hnone
        simp only [hv, Option.isNone_some, if_false]
        exact Or.inl rfl
  · intro s pid bid now now2 t hfind hnone
    obtain ⟨hb, ha, hh, hm, hr⟩ := hcreate s pid bid now t hfind hnone
    refine ⟨hr, ?_, ?_⟩
    · have hfind2 : findThoughtById (branchThought s pid bid now).1 pid = some t := by
        unfold findThoughtById
        rw [hh]
        exact hfind
      have hsome2 : (lookupAssoc (branchThought s pid bid now).1.branches bid).isSome := by
        rw [hb, lookupAssoc_append_self s.branches bid [] hnone]
        rfl
      exact (hexisting (branchThought s pid bid now).1 pid bid now2 t hfind2 hsome2).1
    · have hfind2 : findThoughtById (branchThought s pid bid now).1 pid = some t := by
        unfold findThoughtById
        rw [hh]
        exact hfind
      have hsome2 : (lookupAssoc (branchThought s pid bid now).1.branches bid).isSome := by
        rw [hb, lookupAssoc_append_self s.branches bid [] hnone]
        rfl
      have := (hexisting (branchThought s pid bid now).1 pid bid now2 t hfind2 hsome2).2
      rw [this, ha]
      simp

/-- Witness for C6: branching from the concrete one-thought state with a
fresh branch id creates the empty branch, activates it and reports active. -/
theorem branchThought_spec_witness :
    (branchThought exState1 1 "b1" 0).1.branches = exState1.branches ++ [("b1", [])] ∧
    (branchThought exState1 1 "b1" 0).1.activeBranchId = some "b1" ∧
    (branchThought exState1 1 "b1" 0).1.thoughtHistory = exState1.thoughtHistory ∧
    (branchThought exState1 1 "b1" 0).1.memoryManager = exState1.memoryManager ∧
    (branchThought exState1 1 "b1" 0).2 =
      .ok ⟨"success", exThought1.thoughtNumber, "b1", true⟩ :=
  branchThought_spec.2.1 exState1 1 "b1" 0 exThought1 (by rfl) (by rfl)

/-- C7 counterexample: a NotFound failure of branchThought carries the
constructor name Error in the errorType field, not the error-kind name
NotFound (nor ValidationError nor InvalidStage), so the envelope does not
name which of the three kinds occurred. -/
theorem errorType_counterexample :
    (branchThought initialState 1 "b1" 0).2 =
      .error ⟨"Parent thought with ID 1 not found", "failed", "Error", 0⟩ ∧
    ("Error" : String) ≠ "NotFound" ∧
    ("Error" : String) ≠ "ValidationError" ∧
    ("Error" : String) ≠ "InvalidStage" :=
  ⟨rfl, by decide, by decide, by decide⟩

/-- C7 (amended): every operation returns its failure (never throws past the
boundary) as an envelope carrying status failed, the thrown message, the call
timestamp, and an errorType field holding the thrown error's constructor
name, which is always the plain Error for all three failure kinds; the kinds
are distinguished only by the message text, and each operation fails exactly
on validation failure (capture, composedThink) or on a missing thought or
parent number (the other four). -/
theorem failureEnvelope_amended :
    (∀ s : ServerState, ∀ input : InputData, ∀ now : Nat, ∀ env : ErrorEnvelope,
        (captureThought s input now).2 = .error env →
        ∃ msg, validateThoughtData input now = .error msg ∧
          env = ⟨msg, "failed", "Error", now⟩) ∧
    (∀ s : ServerState, ∀ input : InputData, ∀ now : Nat, ∀ env : ErrorEnvelope,
        (composedThink s input now).2 = .error env →
        ∃ msg, validateThoughtData input now = .error msg ∧
          env = ⟨msg, "failed", "Error", now⟩) ∧
    (∀ s : ServerState, ∀ thoughtId : Int, ∀ rt : Option String, ∀ now : Nat,
        ∀ env : ErrorEnvelope,
        (applyReasoning s thoughtId rt now).2 = .error env →
        findThoughtById s thoughtId = none ∧
        env = ⟨"Thought with ID " ++ toString thoughtId ++ " not found",
               "failed", "Error", now⟩) ∧
    (∀ s : ServerState, ∀ thoughtId : Int, ∀ now : Nat, ∀ env : ErrorEnvelope,
        (serverEvaluateThoughtQuality s thoughtId now).2 = .error env →
        findThoughtById s thoughtId = none ∧
        env = ⟨"Thought with ID " ++ toString thoughtId ++ " not found",
               "failed", "Error", now⟩) ∧
    (∀ s : ServerState, ∀ thoughtId : Int, ∀ now : Nat, ∀ env : ErrorEnvelope,
        (serverRetrieveRelevantThoughts s thoughtId now).2 = .error env →
        findThoughtById s thoughtId = none ∧
        env = ⟨"Thought with ID " ++ toString thoughtId ++ " not found",
               "failed", "Error", now⟩) ∧
    (∀ s : ServerState, ∀ pid : Int, ∀ bid : String, ∀ now : Nat, ∀ env : ErrorEnvelope,
        (branchThought s pid bid now).2 = .error env →
        findThoughtById s pid = none ∧
        env = ⟨"Parent thought with ID " ++ toString pid ++ " not found",
               "failed", "Error", now⟩) := by
  refine ⟨?_, ?_, ?_, ?_, ?_, ?_⟩
  · intro s input now env h
    unfold captureThought at h
    cases hv : validateThoughtData input now with
    | error msg =>
      rw [hv] at h
      refine ⟨msg, rfl, ?_⟩
      have h' : Except.error (handleError msg now) = (Except.error env : Except ErrorEnvelope CaptureOk) := h
      injection h' with h2
      exact h2.symm
    | ok t =>
      rw [hv] at h
      exact absurd h (by simp)
  · intro s input now env h
    unfold composedThink at h
    cases hv : validateThoughtData input now with
    | error msg =>
      rw [hv] at h
      refine ⟨msg, rfl, ?_⟩
      have h' : Except.error (handleError msg now) = (Except.error env : Except ErrorEnvelope ComposedOk) := h
      injection h' with h2
      exact h2.symm
    | ok t =>
      rw [hv] at h
      exact absurd h (by simp)
  · intro s thoughtId rt now env h
    unfold applyReasoning at h
    cases hf : findThoughtById s thoughtId with
    | none =>
      rw [hf] at h
      refine ⟨rfl, ?_⟩
      have h' : Except.error (handleError ("Thought with ID " ++ toString thoughtId ++ " not found") now) =
          (Except.error env : Except ErrorEnvelope ReasoningOk) := h
      injection h' with h2
      exact h2.symm
    | some t =>
      rw [hf] at h
      exact absurd h (by simp)
  · intro s thoughtId now env h
    unfold serverEvaluateThoughtQuality at h
    cases hf : findThoughtById s thoughtId with
    | none =>
      rw [hf] at h
      refine ⟨rfl, ?_⟩
      have h' : Except.error (handleError ("Thought with ID " ++ toString thoughtId ++ " not found") now) =
          (Except.error env : Except ErrorEnvelope EvaluationOk) := h
      injection h' with h2
      exact h2.symm
    | some t =>
      rw [hf] at h
      exact absurd h (by simp)
  · intro s thoughtId now env h
    unfold serverRetrieveRelevantThoughts at h
    cases hf : findThoughtById s thoughtId with
    | none =>
      rw [hf] at h
      refine ⟨rfl, ?_⟩
      have h' : Except.error (handleError ("Thought with ID " ++ toString thoughtId ++ " not found") now) =
          (Except.error env : Except ErrorEnvelope RetrievalOk) := h
      injection h' with h2
      exact h2.symm
    | some t =>
      rw [hf] at h
      exact absurd h (by simp)
  · intro s pid bid now env h
    unfold branchThought at h
    cases hf : findThoughtById s pid with
    | none =>
      rw [hf] at h
      refine ⟨rfl, ?_⟩
      have h' : Except.error (handleError ("Parent thought with ID " ++ toString pid ++ " not found") now) =
          (Except.error env : Except ErrorEnvelope BranchOk) := h
      injection h' with h2
      exact h2.symm
    | some t =>
      rw [hf] at h
      by_cases hb : ((lookupAssoc s.branches bid).isNone = true)
      · simp only [hb, if_true] at h
        exact absurd h (by simp)
      · simp only [hb, if_false] at h
        exact absurd h (by simp)

/-- Witness for C7 (amended): a concrete NotFound failure of branchThought on
the empty state yields the failed envelope with errorType Error. -/
theorem failureEnvelope_amended_witness :
    findThoughtById initialState 2 = none ∧
    (⟨"Parent thought with ID 2 not found", "failed", "Error", 7⟩ : ErrorEnvelope) =
      ⟨"Parent thought with ID " ++ toString (2 : Int) ++ " not found",
       "failed", "Error", 7⟩ :=
  failureEnvelope_amended.2.2.2.2.2 initialState 2 "x" 7
    ⟨"Parent thought with ID 2 not found", "failed", "Error", 7⟩ (by rfl)

/-- The inner push loop of retrieveRelevantThoughts is a filter appended to
the accumulator. -/
theorem foldl_pushIf (p : ThoughtData → Bool) :
    ∀ (l acc : List ThoughtData),
      l.foldl (fun rel t => if p t then rel ++ [t] else rel) acc = acc ++ l.filter p := by
  intro l
  induction l with
  | nil => intro acc; simp
  | cons a rest ih =>
    intro acc
    simp only [List.foldl_cons, List.filter_cons]
    split_ifs with ha
    · rw [ih]
      simp
    · exact ih acc

/-- The nested scan of retrieveRelevantThoughts equals filtering the joined
storage lists. -/
theorem retrieve_foldl (cur : ThoughtData) :
    ∀ (storage : List (ThoughtStage × List ThoughtData)) (acc : List ThoughtData),
      storage.foldl
        (fun relevant entry =>
          entry.2.foldl (fun rel t => if tagsOverlap t cur then rel ++ [t] else rel) relevant)
        acc =
      acc ++ ((storage.map Prod.snd).flatten.filter (fun t => tagsOverlap t cur)) := by
  intro storage
  induction storage with
  | nil => intro acc; simp
  | cons e rest ih =>
    intro acc
    simp only [List.foldl_cons, List.map_cons, List.flatten_cons]
    rw [foldl_pushIf _ e.2 acc, ih, List.filter_append, List.append_assoc]

/-- C8: retrieveRelevantThoughts returns exactly the stored long-term
thoughts sharing at least one tag with the query thought, in storage
iteration order (stage insertion order, then within-stage insertion order),
with no deduplication; a query thought with no tags retrieves nothing. -/
theorem retrieveRelevantThoughts_spec :
    (∀ m : MemoryManager, ∀ cur : ThoughtData,
        retrieveRelevantThoughts m cur =
          (m.longTermStorage.map Prod.snd).flatten.filter
            (fun t => t.tags.any (fun tag => cur.tags.contains tag))) ∧
    (∀ m : MemoryManager, ∀ cur : ThoughtData, cur.tags = [] →
        retrieveRelevantThoughts m cur = []) := by
  have hmain : ∀ m : MemoryManager, ∀ cur : ThoughtData,
      retrieveRelevantThoughts m cur =
        (m.longTermStorage.map Prod.snd).flatten.filter
          (fun t => t.tags.any (fun tag => cur.tags.contains tag)) := by
    intro m cur
    unfold retrieveRelevantThoughts
    have h := retrieve_foldl cur m.longTermStorage []
    simpa [tagsOverlap] using h
  refine ⟨hmain, ?_⟩
  intro m cur hnil
  rw [hmain m cur]
  apply List.filter_eq_nil_iff.mpr
  intro a ha
  simp [hnil]

/-- Witness for C8: with a promoted thought in long-term storage, a query
thought carrying no tags retrieves the empty list. -/
theorem retrieveRelevantThoughts_spec_witness :
    retrieveRelevantThoughts (consolidateMemory initialMemory exThoughtHigh) exThought1 = [] :=
  retrieveRelevantThoughts_spec.2 (consolidateMemory initialMemory exThoughtHigh)
    exThought1 rfl

/-- Successful validation copies the input fields into the thought and stamps
createdAt with the validation time. -/
theorem validateThoughtData_ok_fields (input : InputData) (now : Nat) (t : ThoughtData)
    (h : validateThoughtData input now = .ok t) :
    t.thoughtNumber = input.thoughtNumber ∧ t.branchFromThought = input.branchFromThought ∧
    t.branchId = input.branchId ∧ t.createdAt = now ∧ t.score = input.score ∧
    t.tags = input.tags.getD [] := by
  unfold validateThoughtData at h
  cases hs : thoughtStageFromString input.stage with
  | error e =>
    rw [hs] at h
    exact absurd h (by simp)
  | ok stage =>
    rw [hs] at h
    dsimp only at h
    cases hvv : validateThought
        { thought := input.thought, thoughtNumber := input.thoughtNumber,
          totalThoughts := input.totalThoughts, nextThoughtNeeded := input.nextThoughtNeeded,
          stage := stage, isRevision := input.isRevision, revisesThought := input.revisesThought,
          branchFromThought := input.branchFromThought, branchId := input.branchId,
          needsMoreThoughts := input.needsMoreThoughts, score := input.score,
          tags := input.tags.getD [], createdAt := now } with
    | error e =>
      rw [hvv] at h
      exact absurd h (by simp)
    | ok u =>
      rw [hvv] at h
      simp only [Except.ok.injEq] at h
      subst h
      exact ⟨rfl, rfl, rfl, rfl, rfl, rfl⟩

/-- Branch bookkeeping never touches the history, the memory manager or the
active branch. -/
theorem branchBookkeeping_frame (s : ServerState) (t : ThoughtData) :
    (branchBookkeeping s t).thoughtHistory = s.thoughtHistory ∧
    (branchBookkeeping s t).memoryManager = s.memoryManager ∧
    (branchBookkeeping s t).activeBranchId = s.activeBranchId := by
  unfold branchBookkeeping
  rcases t.branchFromThought with _ | bft <;> rcases t.branchId with _ | bid <;> dsimp only
  · exact ⟨rfl, rfl, rfl⟩
  · exact ⟨rfl, rfl, rfl⟩
  · exact ⟨rfl, rfl, rfl⟩
  · split_ifs <;> exact ⟨rfl, rfl, rfl⟩

/-- Successful capture consolidates the validated thought into memory,
appends it to the history and reports its number, stage, timestamp and
branch. -/
theorem captureThought_ok_state (s : ServerState) (input : InputData) (now : Nat)
    (t : ThoughtData) (hv : validateThoughtData input now = .ok t) :
    (captureThought s input now).1.thoughtHistory = s.thoughtHistory ++ [t] ∧
    (captureThought s input now).1.memoryManager = consolidateMemory s.memoryManager t ∧
    (captureThought s input now).2 =
      .ok ⟨"success", t.thoughtNumber, t.stage, t.createdAt, t.branchId⟩ := by
  unfold captureThought
  rw [hv]
  refine ⟨?_, ?_, rfl⟩
  · exact (branchBookkeeping_frame _ t).1
  · exact (branchBookkeeping_frame _ t).2.1

/-- C9: whenever captureThought succeeds, the evaluate-quality operation on
the same thought number against the resulting state also succeeds (it never
fails NotFound). -/
theorem capture_then_evaluate_spec :
    ∀ s : ServerState, ∀ input : InputData, ∀ now now2 : Nat, ∀ r : CaptureOk,
      (captureThought s input now).2 = .ok r →
      ∃ e : EvaluationOk,
        (serverEvaluateThoughtQuality (captureThought s input now).1
          input.thoughtNumber now2).2 = .ok e := by
  intro s input now now2 r hok
  cases hv : validateThoughtData input now with
  | error msg =>
    unfold captureThought at hok
    rw [hv] at hok
    exact absurd hok (by simp)
  | ok t =>
    obtain ⟨hh, hm, hr⟩ := captureThought_ok_state s input now t hv
    have htn : t.thoughtNumber = input.thoughtNumber :=
      (validateThoughtData_ok_fields input now t hv).1
    have hfind : (findThoughtById (captureThought s input now).1 input.thoughtNumber).isSome := by
      unfold findThoughtById
      rw [hh]
      exact List.find?_isSome.mpr ⟨t, by simp, by simp [htn]⟩
    obtain ⟨u, hu⟩ := Option.isSome_iff_exists.mp hfind
    unfold serverEvaluateThoughtQuality
    rw [hu]
    exact ⟨_, rfl⟩

/-- Valid example input at stage Problem Definition with no score. -/
def exInput : InputData :=
  { thought := "w", thoughtNumber := 1, totalThoughts := 3, nextThoughtNeeded := true,
    stage := "Problem Definition", isRevision := none, revisesThought := none,
    branchFromThought := none, branchId := none, needsMoreThoughts := none,
    score := none, tags := none }

/-- Witness for C9: capturing the concrete valid input and evaluating the
same number succeeds. -/
theorem capture_then_evaluate_witness :
    ∃ e : EvaluationOk,
      (serverEvaluateThoughtQuality (captureThought initialState exInput 0).1
        exInput.thoughtNumber 1).2 = .ok e :=
  capture_then_evaluate_spec initialState exInput 0 1
    ⟨"success", 1, ThoughtStage.PROBLEM_DEFINITION, 0, none⟩ (by rfl)

/-- With a branchFromThought of 0 or an empty branchId the branch condition
is falsy, so branch bookkeeping leaves the state untouched. -/
theorem branchBookkeeping_falsy (s : ServerState) (t : ThoughtData)
    (h : t.branchFromThought = some 0 ∨ t.branchId = some "") :
    branchBookkeeping s t = s := by
  unfold branchBookkeeping
  rcases hb : t.branchFromThought with _ | bft <;> rcases hd : t.branchId with _ | bid <;>
    dsimp only
  rcases h with h | h
  · rw [hb] at h
    injection h with h0
    subst h0
    rw [if_pos (Or.inl rfl)]
  · rw [hd] at h
    injection h with h0
    subst h0
    rw [if_pos (Or.inr rfl)]

/-- C10: a valid input whose branchFromThought equals 0 or whose branchId is
the empty string is captured and composed successfully, with the thought
consolidated into memory and appended to history, but no branch list is
created or extended, because the branch condition tests truthiness rather
than presence. -/
theorem falsyBranch_spec :
    ∀ s : ServerState, ∀ input : InputData, ∀ now : Nat, ∀ t : ThoughtData,
      validateThoughtData input now = .ok t →
      (input.branchFromThought = some 0 ∨ input.branchId = some "") →
      (captureThought s input now).2 =
        .ok ⟨"success", t.thoughtNumber, t.stage, t.createdAt, t.branchId⟩ ∧
      (captureThought s input now).1.thoughtHistory = s.thoughtHistory ++ [t] ∧
      (captureThought s input now).1.memoryManager = consolidateMemory s.memoryManager t ∧
      (captureThought s input now).1.branches = s.branches ∧
      (∃ r : ComposedOk, (composedThink s input now).2 = .ok r) ∧
      (composedThink s input now).1.thoughtHistory =
        s.thoughtHistory ++ [applyReasoningStrategy t] ∧
      (composedThink s input now).1.memoryManager =
        consolidateMemory s.memoryManager (applyReasoningStrategy t) ∧
      (composedThink s input now).1.branches = s.branches := by
  intro s input now t hv hfalsy
  obtain ⟨htn, hbf, hbi, hct, hsc, htg⟩ := validateThoughtData_ok_fields input now t hv
  have hfalsy' : t.branchFromThought = some 0 ∨ t.branchId = some "" := by
    rcases hfalsy with h | h
    · exact Or.inl (by rw [hbf, h])
    · exact Or.inr (by rw [hbi, h])
  have hfalsyStrat : (applyReasoningStrategy t).branchFromThought = some 0 ∨
      (applyReasoningStrategy t).branchId = some "" := hfalsy'
  obtain ⟨hh, hm, hr⟩ := captureThought_ok_state s input now t hv
  refine ⟨hr, hh, hm, ?_, ?_, ?_, ?_, ?_⟩
  · unfold captureThought
    rw [hv]
    dsimp only
    rw [branchBookkeeping_falsy _ t hfalsy']
  · unfold composedThink
    rw [hv]
    exact ⟨_, rfl⟩
  · unfold composedThink
    rw [hv]
    dsimp only
    rw [branchBookkeeping_falsy _ _ hfalsyStrat]
  · unfold composedThink
    rw [hv]
    dsimp only
    rw [branchBookkeeping_falsy _ _ hfalsyStrat]
  · unfold composedThink
    rw [hv]
    dsimp only
    rw [branchBookkeeping_falsy _ _ hfalsyStrat]

/-- Valid example input carrying a branchFromThought of 0 and a nonempty
branchId. -/
def exInputFalsy : InputData :=
  { thought := "w", thoughtNumber := 1, totalThoughts := 3, nextThoughtNeeded := true,
    stage := "Plan", isRevision := none, revisesThought := none,
    branchFromThought := some 0, branchId := some "b", needsMoreThoughts := none,
    score := none, tags := none }

/-- The thought produced by validating exInputFalsy at time 0. -/
def exThoughtFalsy : ThoughtData :=
  { thought := "w", thoughtNumber := 1, totalThoughts := 3, nextThoughtNeeded := true,
    stage := ThoughtStage.PLAN, isRevision := none, revisesThought := none,
    branchFromThought := some 0, branchId := some "b", needsMoreThoughts := none,
    score := none, tags := [], createdAt := 0 }

/-- Witness for C10: capturing and composing the concrete input with
branchFromThought 0 succeeds and leaves the branch index empty. -/
theorem falsyBranch_spec_witness :
    (captureThought initialState exInputFalsy 0).2 =
      .ok ⟨"success", exThoughtFalsy.thoughtNumber, exThoughtFalsy.stage,
           exThoughtFalsy.createdAt, exThoughtFalsy.branchId⟩ ∧
    (captureThought initialState exInputFalsy 0).1.thoughtHistory =
      initialState.thoughtHistory ++ [exThoughtFalsy] ∧
    (captureThought initialState exInputFalsy 0).1.memoryManager =
      consolidateMemory initialState.memoryManager exThoughtFalsy ∧
    (captureThought initialState exInputFalsy 0).1.branches = initialState.branches ∧
    (∃ r : ComposedOk, (composedThink initialState exInputFalsy 0).2 = .ok r) ∧
    (composedThink initialState exInputFalsy 0).1.thoughtHistory =
      initialState.thoughtHistory ++ [applyReasoningStrategy exThoughtFalsy] ∧
    (composedThink initialState exInputFalsy 0).1.memoryManager =
      consolidateMemory initialState.memoryManager (applyReasoningStrategy exThoughtFalsy) ∧
    (composedThink initialState exInputFalsy 0).1.branches = initialState.branches :=
  falsyBranch_spec initialState exInputFalsy 0 exThoughtFalsy (by rfl) (Or.inl rfl)
